import Mathlib

set_option maxHeartbeats 1000000

namespace Mycelium

/-!
Shallow embedding of the mycelium agent-orchestration core.

Part 1 models the per-repository task queue of src/queue/mod.rs.
The Rust `HashMap<String, VecDeque<Task>>` is modelled as an association
list; the list order plays the role of the map's (arbitrary but, between
structural mutations, stable) iteration order, with fresh keys appended
at the tail.
-/

inductive IssueMode where
  | implement
  | research
deriving DecidableEq

/-- `Task` from src/queue/task.rs: a discriminated unit of work. -/
inductive Task where
  | resolveIssue (installationId : Nat) (repoFullName cloneUrl defaultBranch : String)
      (issueNumber : Nat) (issueTitle issueBody : String) (mode : IssueMode)
  | respondToReview (installationId : Nat) (repoFullName cloneUrl : String)
      (prNumber : Nat) (prBranch reviewBody : String)
deriving DecidableEq

/-- The predicate of `TaskQueue::cancel_issue`'s `retain` call:
`matches!(task, Task::ResolveIssue { issue_number: n, .. } if *n == issue_number)`. -/
def Task.matchesIssue (t : Task) (issueNumber : Nat) : Bool :=
  match t with
  | .resolveIssue _ _ _ _ n _ _ _ => n == issueNumber
  | .respondToReview _ _ _ _ _ _ => false

/-- `TaskQueue` from src/queue/mod.rs (the notifier channel is an
observability side channel and carries no queue state). -/
structure TaskQueue where
  queues : List (String × List Task)
deriving DecidableEq

def TaskQueue.new : TaskQueue := ⟨[]⟩

/-- `self.queues.entry(repo.to_string()).or_default().push_back(task)` -/
def enqueueGo (l : List (String × List Task)) (repo : String) (t : Task) :
    List (String × List Task) :=
  match l with
  | [] => [(repo, [t])]
  | (k, q) :: rest =>
      if k = repo then (k, q ++ [t]) :: rest else (k, q) :: enqueueGo rest repo t

def TaskQueue.enqueue (tq : TaskQueue) (repo : String) (t : Task) : TaskQueue :=
  ⟨enqueueGo tq.queues repo t⟩

/-- `TaskQueue::cancel_issue`: retain the tasks not matching the issue.
Note the source never removes the key, even when the retained sequence
is empty. -/
def cancelGo (l : List (String × List Task)) (repo : String) (issueNumber : Nat) :
    List (String × List Task) :=
  match l with
  | [] => []
  | (k, q) :: rest =>
      if k = repo then (k, q.filter (fun t => ! t.matchesIssue issueNumber)) :: rest
      else (k, q) :: cancelGo rest repo issueNumber

def TaskQueue.cancel_issue (tq : TaskQueue) (repo : String) (issueNumber : Nat) : TaskQueue :=
  ⟨cancelGo tq.queues repo issueNumber⟩

/-- Pop the head of `repo`'s deque and drop the key if the deque is then
empty — the body of `TaskQueue::take_next` after the key was selected. -/
def popGo (l : List (String × List Task)) (repo : String) :
    Option Task × List (String × List Task) :=
  match l with
  | [] => (none, [])
  | (k, q) :: rest =>
      if k = repo then
        (q.head?, if q.tail.isEmpty then rest else (k, q.tail) :: rest)
      else
        let r := popGo rest repo
        (r.1, (k, q) :: r.2)

/-- `TaskQueue::take_next`: select the first key (in iteration order) whose
deque is non-empty, pop its head, prune the key if now empty. The
selection does not rotate: the same key stays first as long as it has
pending tasks. -/
def TaskQueue.take_next (tq : TaskQueue) : Option Task × TaskQueue :=
  match tq.queues.find? (fun kq => !kq.2.isEmpty) with
  | none => (none, tq)
  | some (repo, _) =>
      let r := popGo tq.queues repo
      (r.1, ⟨r.2⟩)

/-- The documented invariant: no key maps to an empty sequence. -/
def TaskQueue.wf (tq : TaskQueue) : Prop :=
  ∀ kq ∈ tq.queues, kq.2 ≠ []

instance (tq : TaskQueue) : Decidable tq.wf :=
  inferInstanceAs (Decidable (∀ kq ∈ tq.queues, kq.2 ≠ []))

theorem enqueueGo_wf (l : List (String × List Task)) (repo : String) (t : Task)
    (h : ∀ kq ∈ l, kq.2 ≠ []) : ∀ kq ∈ enqueueGo l repo t, kq.2 ≠ [] := by
  induction l with
  | nil =>
      intro kq hm
      simp only [enqueueGo, List.mem_singleton] at hm
      subst hm
      simp
  | cons hd tl ih =>
      obtain ⟨k, q⟩ := hd
      intro kq hm
      simp only [enqueueGo] at hm
      by_cases hk : k = repo
      · simp only [if_pos hk, List.mem_cons] at hm
        rcases hm with h1 | h2
        · subst h1
          simp
        · exact h kq (List.mem_cons_of_mem _ h2)
      · simp only [if_neg hk, List.mem_cons] at hm
        rcases hm with h1 | h2
        · subst h1
          exact h (k, q) (List.mem_cons_self _ _)
        · exact ih (fun x hx => h x (List.mem_cons_of_mem _ hx)) kq h2

theorem popGo_wf (l : List (String × List Task)) (repo : String)
    (h : ∀ kq ∈ l, kq.2 ≠ []) : ∀ kq ∈ (popGo l repo).2, kq.2 ≠ [] := by
  induction l with
  | nil =>
      intro kq hm
      simp [popGo] at hm
  | cons hd tl ih =>
      obtain ⟨k, q⟩ := hd
      intro kq hm
      simp only [popGo] at hm
      by_cases hk : k = repo
      · simp only [if_pos hk] at hm
        by_cases he : q.tail.isEmpty
        · simp only [if_pos he] at hm
          exact h kq (List.mem_cons_of_mem _ hm)
        · simp only [if_neg he, List.mem_cons] at hm
          rcases hm with h1 | h2
          · subst h1
            simpa using he
          · exact h kq (List.mem_cons_of_mem _ h2)
      · simp only [if_neg hk, List.mem_cons] at hm
        rcases hm with h1 | h2
        · subst h1
          exact h (k, q) (List.mem_cons_self _ _)
        · exact ih (fun x hx => h x (List.mem_cons_of_mem _ hx)) kq h2

/-- Concrete tasks for the queue scenarios. -/
def taskA1 : Task := .resolveIssue 1 "o/A" "urlA" "main" 101 "first A" "" .implement

def taskA2 : Task := .resolveIssue 1 "o/A" "urlA" "main" 102 "second A" "" .implement

def taskB1 : Task := .resolveIssue 2 "o/B" "urlB" "main" 201 "first B" "" .implement

def c1Queue : TaskQueue :=
  ((TaskQueue.new.enqueue "A" taskA1).enqueue "A" taskA2).enqueue "B" taskB1

/-- C1: with tasks enqueued under keys A, A, B, three successive
`take_next` calls return the first A task, then the SECOND A task, then
the B task — the selection drains the first key in iteration order and
is not round-robin, contradicting the claimed A, B, A interleaving. -/
theorem c1_take_next_drains_first_key :
    (c1Queue.take_next.1 = some taskA1
      ∧ c1Queue.take_next.2.take_next.1 = some taskA2
      ∧ c1Queue.take_next.2.take_next.2.take_next.1 = some taskB1)
    ∧ c1Queue.take_next.2.take_next.1 ≠ some taskB1 := by
  decide

/-- C2 counterexample: cancelling the only pending issue of a key leaves
the key in the map with an empty sequence — `cancel_issue` does not
prune, so the no-empty-queues invariant is broken. -/
theorem c2_cancel_issue_leaves_empty_key :
    ((TaskQueue.new.enqueue "A" taskA1).cancel_issue "A" 101).queues = [("A", [])]
    ∧ ¬ ((TaskQueue.new.enqueue "A" taskA1).cancel_issue "A" 101).wf := by
  decide

/-- C2 (amended): `enqueue` and `take_next` do preserve the invariant
that every key present in the map has a non-empty task sequence. -/
theorem c2_enqueue_take_next_preserve_invariant (tq : TaskQueue) (repo : String) (t : Task)
    (h : tq.wf) : (tq.enqueue repo t).wf ∧ tq.take_next.2.wf := by
  constructor
  · exact enqueueGo_wf tq.queues repo t h
  · unfold TaskQueue.take_next
    cases hf : tq.queues.find? (fun kq => !kq.2.isEmpty) with
    | none => exact h
    | some kq =>
        obtain ⟨repo0, q0⟩ := kq
        exact popGo_wf tq.queues repo0 h

theorem c2_enqueue_take_next_preserve_invariant_witness :
    (((TaskQueue.new.enqueue "A" taskA1).enqueue "B" taskB1).enqueue "A" taskA2).wf
    ∧ ((TaskQueue.new.enqueue "A" taskA1).enqueue "B" taskB1).take_next.2.wf := by
  refine ⟨(c2_enqueue_take_next_preserve_invariant
    ((TaskQueue.new.enqueue "A" taskA1).enqueue "B" taskB1) "A" taskA2 (by decide)).1,
    (c2_enqueue_take_next_preserve_invariant
    ((TaskQueue.new.enqueue "A" taskA1).enqueue "B" taskB1) "A" taskA2 (by decide)).2⟩

/-!
Part 2 models the protocol client of src/agent/claude.rs and the error
type of src/error.rs. Tool inputs (`serde_json::Value` objects whose
fields the tools read with `as_str`) are modelled as association lists
of string fields; HTTP statuses as `Nat`.
-/

/-- `AppError` from src/error.rs. -/
inductive AppError where
  | config (msg : String)
  | webhookVerification (msg : String)
  | gitHubApi (msg : String)
  | git (msg : String)
  | workspace (msg : String)
  | agent (msg : String)
  | claudeApi (msg : String)
  | claudeRateLimited (msg : String)
  | claudeTransient (msg : String)
  | serialization (msg : String)
  | http (msg : String)
  | io (msg : String)
  | internal (msg : String)
deriving DecidableEq

/-- The `thiserror`-derived `Display` of `AppError`. -/
def AppError.display : AppError → String
  | .config s => "Configuration error: " ++ s
  | .webhookVerification s => "Webhook verification failed: " ++ s
  | .gitHubApi s => "GitHub API error: " ++ s
  | .git s => "Git operation failed: " ++ s
  | .workspace s => "Workspace error: " ++ s
  | .agent s => "Agent error: " ++ s
  | .claudeApi s => "Claude API error: " ++ s
  | .claudeRateLimited s => "Claude API rate limited: " ++ s
  | .claudeTransient s => "Claude API transient error: " ++ s
  | .serialization s => "Serialization error: " ++ s
  | .http s => "HTTP request error: " ++ s
  | .io s => "I/O error: " ++ s
  | .internal s => "Internal error: " ++ s

abbrev ToolInput := List (String × String)

/-- `ContentBlock` from src/agent/claude.rs. -/
inductive ContentBlock where
  | text (text : String)
  | toolUse (id : String) (name : String) (input : ToolInput)
  | toolResult (toolUseId : String) (content : String) (isError : Option Bool)
deriving DecidableEq

/-- `Usage` from src/agent/claude.rs. -/
structure Usage where
  inputTokens : Nat
  outputTokens : Nat
  cacheCreationInputTokens : Option Nat
  cacheReadInputTokens : Option Nat
deriving DecidableEq

/-- `MessagesResponse` from src/agent/claude.rs. -/
structure MessagesResponse where
  id : String
  content : List ContentBlock
  stopReason : Option String
  usage : Usage
deriving DecidableEq

/-- What the HTTP transport hands back to `send_message`: either a
send-level failure (timeout, connection reset, DNS — any `reqwest`
error from `.send()`), or an HTTP response with a status code, a body
text, and the result of decoding the body as a `MessagesResponse`. -/
inductive HttpSendResult where
  | sendFailure (msg : String)
  | response (status : Nat) (body : String) (decoded : Option MessagesResponse)
deriving DecidableEq

def statusIsSuccess (s : Nat) : Bool := 200 ≤ s && s ≤ 299

def statusIsServerError (s : Nat) : Bool := 500 ≤ s && s ≤ 599

/-- `ClaudeClient::send_message` from src/agent/claude.rs: failure
classification over the transport result. -/
def send_message (r : HttpSendResult) : Except AppError MessagesResponse :=
  match r with
  | .sendFailure e => .error (.claudeTransient ("HTTP request error: " ++ e))
  | .response status body decoded =>
      if !statusIsSuccess status then
        if status == 429 then
          .error (.claudeRateLimited ("Rate limited (429): " ++ body))
        else if statusIsServerError status || status == 529 then
          .error (.claudeTransient ("Server error (" ++ toString status ++ "): " ++ body))
        else
          .error (.claudeApi ("API returned " ++ toString status ++ ": " ++ body))
      else
        match decoded with
        | some resp => .ok resp
        | none => .error (.http "JSON decode error")

/-- C6: `send_message` classifies every failure exactly as the spec
states: network-level send failures are Transient; HTTP 429 is
RateLimited; HTTP 5xx and the vendor overloaded status 529 are
Transient; every other non-success status is Permanent/Api; and a
successful status yields the parsed response. -/
theorem c6_send_message_classification :
    (∀ e : String, ∃ m : String, send_message (.sendFailure e) = .error (.claudeTransient m))
    ∧ (∀ body decoded, ∃ m, send_message (.response 429 body decoded) = .error (.claudeRateLimited m))
    ∧ (∀ status body decoded, statusIsServerError status = true ∨ status = 529 →
        ∃ m, send_message (.response status body decoded) = .error (.claudeTransient m))
    ∧ (∀ status body decoded, statusIsSuccess status = false → status ≠ 429 →
        statusIsServerError status = false → status ≠ 529 →
        ∃ m, send_message (.response status body decoded) = .error (.claudeApi m))
    ∧ (∀ status body resp, statusIsSuccess status = true →
        send_message (.response status body (some resp)) = .ok resp) := by
  refine ⟨fun e => ⟨_, rfl⟩, fun body decoded => ⟨_, rfl⟩, ?_, ?_, ?_⟩
  · intro status body decoded h
    have hns : statusIsSuccess status = false := by
      rcases h with h | h
      · simp only [statusIsServerError, Bool.and_eq_true, decide_eq_true_eq] at h
        simp only [statusIsSuccess, Bool.and_eq_false_iff]
        right
        simp only [decide_eq_false_iff_not]
        omega
      · subst h
        decide
    have h429 : (status == 429) = false := by
      rcases h with h | h
      · simp only [statusIsServerError, Bool.and_eq_true, decide_eq_true_eq] at h
        simp only [beq_eq_false_iff_ne, ne_eq]
        omega
      · subst h
        decide
    have hsrv : (statusIsServerError status || status == 529) = true := by
      rcases h with h | h
      · simp [h]
      · subst h
        decide
    refine ⟨"Server error (" ++ toString status ++ "): " ++ body, ?_⟩
    simp [send_message, hns, h429, hsrv]
  · intro status body decoded hns h429 hsrv h529
    have h429b : (status == 429) = false := by simpa using h429
    have h529b : (status == 529) = false := by simpa using h529
    refine ⟨"API returned " ++ toString status ++ ": " ++ body, ?_⟩
    simp [send_message, hns, h429b, hsrv, h529b]
  · intro status body resp hs
    simp [send_message, hs]

def respOk : MessagesResponse := ⟨"msg1", [.text "hello"], some "end_turn", ⟨1, 2, none, none⟩⟩

theorem c6_send_message_classification_witness :
    (∃ m, send_message (.sendFailure "timeout") = .error (.claudeTransient m))
    ∧ (∃ m, send_message (.response 429 "b" none) = .error (.claudeRateLimited m))
    ∧ (∃ m, send_message (.response 503 "b" none) = .error (.claudeTransient m))
    ∧ (∃ m, send_message (.response 529 "b" none) = .error (.claudeTransient m))
    ∧ (∃ m, send_message (.response 404 "b" none) = .error (.claudeApi m))
    ∧ send_message (.response 200 "b" (some respOk)) = .ok respOk := by
  refine ⟨c6_send_message_classification.1 "timeout",
    c6_send_message_classification.2.1 "b" none,
    c6_send_message_classification.2.2.1 503 "b" none (Or.inl (by decide)),
    c6_send_message_classification.2.2.1 529 "b" none (Or.inr rfl),
    c6_send_message_classification.2.2.2.1 404 "b" none (by decide) (by decide)
      (by decide) (by decide),
    c6_send_message_classification.2.2.2.2 200 "b" respOk (by decide)⟩

/-!
Part 3 models the agent loop of src/agent/engine.rs. The protocol
client is scripted: a function from the send-attempt index to the
`Result` that `ClaudeClient::send_message` would return for that call.
The cancellation predicate is likewise a function from the index of the
cancellation check to its boolean answer. Tools are the trait objects of
the `ToolRegistry`: a name plus an execution function over an abstract
world state `W` standing for the filesystem the tools act on. The run
returns, besides the outcome, the observable trace: final world, final
conversation, number of client calls, number of cancellation checks,
and the backoff durations slept (in abstract duration units).
-/

/-- `AgentOutcome` from src/agent/engine.rs. -/
inductive AgentOutcome where
  | completed (summary : String)
  | clarificationNeeded (question : String)
  | turnLimitReached (msg : String)
  | rateLimited (message : String)
  | cancelled
  | failed (message : String)
deriving DecidableEq

/-- `RateLimitConfig` from src/agent/engine.rs. -/
structure RateLimitConfig where
  enabled : Bool
  max_retries : Nat
  initial_backoff : Nat
deriving DecidableEq

/-- `MessageContent` from src/agent/claude.rs. -/
inductive MessageContent where
  | text (s : String)
  | blocks (blocks : List ContentBlock)
deriving DecidableEq

/-- `Message` from src/agent/claude.rs. -/
structure Message where
  role : String
  content : MessageContent
deriving DecidableEq

/-- `ToolOutput` from src/agent/tools/mod.rs. -/
inductive ToolOutput where
  | success (s : String)
  | error (s : String)
  | clarificationNeeded (s : String)
deriving DecidableEq

/-- One `dyn Tool` of the registry: its name and its `execute` contract,
a state transformer over the world `W` returning `Result<ToolOutput>`. -/
structure ToolModel (W : Type) where
  name : String
  exec : W → ToolInput → W × Except AppError ToolOutput

/-- `AgentEngine` from src/agent/engine.rs (the client is passed to
`run` as a script, see above). -/
structure AgentEngine (W : Type) where
  tools : List (ToolModel W)
  max_turns : Nat
  rate_limit : RateLimitConfig

/-- Running usage totals accumulated per turn. -/
structure UsageTotals where
  inputTokens : Nat
  outputTokens : Nat
  cacheReadTokens : Nat
  cacheCreationTokens : Nat
deriving DecidableEq

def UsageTotals.add (t : UsageTotals) (u : Usage) : UsageTotals :=
  ⟨t.inputTokens + u.inputTokens, t.outputTokens + u.outputTokens,
    t.cacheReadTokens + u.cacheReadInputTokens.getD 0,
    t.cacheCreationTokens + u.cacheCreationInputTokens.getD 0⟩

/-- `2u32.saturating_pow(k)`. -/
def saturatingPow2 (k : Nat) : Nat := min (2 ^ k) (2 ^ 32 - 1)

/-- Counters threaded through the retry loop: total send attempts made,
total cancellation checks made, backoffs slept so far. -/
structure RetryState where
  attempt : Nat
  check : Nat
  backoffs : List Nat
deriving DecidableEq

inductive RetryResult where
  | got (resp : MessagesResponse) (st : RetryState)
  | halt (outcome : AgentOutcome) (st : RetryState)
deriving DecidableEq

/-- The send-with-retry inner loop of `AgentEngine::run`
(src/agent/engine.rs, the `loop` around `send_message`). -/
def sendWithRetry (cfg : RateLimitConfig) (script : Nat → Except AppError MessagesResponse)
    (cancel : Nat → Bool) (attempt check retries : Nat) (acc : List Nat) : RetryResult :=
  match script attempt with
  | .ok r => .got r ⟨attempt + 1, check, acc⟩
  | .error (.claudeRateLimited msg) =>
      if h : cfg.enabled = false ∨ cfg.max_retries ≤ retries then
        .halt (.rateLimited msg) ⟨attempt + 1, check, acc⟩
      else
        let backoff := cfg.initial_backoff * saturatingPow2 retries
        if cancel check then
          .halt .cancelled ⟨attempt + 1, check + 1, acc ++ [backoff]⟩
        else
          sendWithRetry cfg script cancel (attempt + 1) (check + 1) (retries + 1)
            (acc ++ [backoff])
  | .error e => .halt (.failed ("Claude API error: " ++ e.display)) ⟨attempt + 1, check, acc⟩
termination_by cfg.max_retries - retries
decreasing_by
  push_neg at h
  omega

/-- `AgentEngine::execute_tool`. -/
def execute_tool {W : Type} (eng : AgentEngine W) (w : W) (name : String) (input : ToolInput) :
    W × Except AppError ToolOutput :=
  match eng.tools.find? (fun t => t.name == name) with
  | none => (w, .error (.agent ("Unknown tool: " ++ name)))
  | some t => t.exec w input

/-- The tool-dispatch loop of the `tool_use` branch: execute every
tool-invocation-request block in order, collecting flagged tool results;
a `ClarificationNeeded` tool output short-circuits (third component
`some question`), leaving later blocks unexecuted. -/
def processBlocks {W : Type} (eng : AgentEngine W) (w : W) :
    List ContentBlock → W × List ContentBlock × Option String
  | [] => (w, [], none)
  | .toolUse id name input :: rest =>
      let r := execute_tool eng w name input
      match r.2 with
      | .ok (.success content) =>
          let pb := processBlocks eng r.1 rest
          (pb.1, .toolResult id content none :: pb.2.1, pb.2.2)
      | .ok (.error err) =>
          let pb := processBlocks eng r.1 rest
          (pb.1, .toolResult id err (some true) :: pb.2.1, pb.2.2)
      | .ok (.clarificationNeeded q) => (r.1, [], some q)
      | .error e =>
          let pb := processBlocks eng r.1 rest
          (pb.1, .toolResult id ("Internal error: " ++ e.display) (some true) :: pb.2.1, pb.2.2)
  | _ :: rest => processBlocks eng w rest

/-- `extract_text` from src/agent/engine.rs. -/
def extractText (content : List ContentBlock) : String :=
  String.intercalate "\n" (content.filterMap fun b =>
    match b with
    | .text t => some t
    | _ => none)

/-- Result and observable trace of one agent run. -/
structure RunResult (W : Type) where
  outcome : AgentOutcome
  world : W
  messages : List Message
  attempts : Nat
  checks : Nat
  backoffs : List Nat
  totals : UsageTotals

/-- The turn loop of `AgentEngine::run`. -/
def runLoop {W : Type} (eng : AgentEngine W) (script : Nat → Except AppError MessagesResponse)
    (cancel : Nat → Bool) (w : W) (messages : List Message) (turn attempt check : Nat)
    (backoffs : List Nat) (totals : UsageTotals) : RunResult W :=
  if _hlt : eng.max_turns ≤ turn then
    ⟨.turnLimitReached "Agent reached maximum number of turns without completing the task.",
      w, messages, attempt, check, backoffs, totals⟩
  else if cancel check then
    ⟨.cancelled, w, messages, attempt, check + 1, backoffs, totals⟩
  else
    match sendWithRetry eng.rate_limit script cancel attempt (check + 1) 0 [] with
    | .halt outcome st =>
        ⟨outcome, w, messages, st.attempt, st.check, backoffs ++ st.backoffs, totals⟩
    | .got resp st =>
        let totals1 := totals.add resp.usage
        let stop := resp.stopReason.getD "unknown"
        if stop = "end_turn" then
          ⟨.completed (extractText resp.content), w, messages, st.attempt, st.check,
            backoffs ++ st.backoffs, totals1⟩
        else if stop = "tool_use" then
          let messages1 := messages ++ [⟨"assistant", .blocks resp.content⟩]
          let pb := processBlocks eng w resp.content
          match pb.2.2 with
          | some q =>
              ⟨.clarificationNeeded q, pb.1, messages1, st.attempt, st.check,
                backoffs ++ st.backoffs, totals1⟩
          | none =>
              runLoop eng script cancel pb.1 (messages1 ++ [⟨"user", .blocks pb.2.1⟩])
                (turn + 1) st.attempt st.check (backoffs ++ st.backoffs) totals1
        else if stop = "max_tokens" then
          runLoop eng script cancel w
            (messages ++ [⟨"assistant", .blocks resp.content⟩, ⟨"user", .text "Please continue."⟩])
            (turn + 1) st.attempt st.check (backoffs ++ st.backoffs) totals1
        else
          ⟨.failed ("Unexpected stop reason: " ++ stop), w, messages, st.attempt, st.check,
            backoffs ++ st.backoffs, totals1⟩
termination_by eng.max_turns - turn
decreasing_by
  all_goals omega

/-- `AgentEngine::run` entry point (the system prompt and the cacheable
tool definitions only shape the request payload, which the scripted
client abstracts over). -/
def AgentEngine.run {W : Type} (eng : AgentEngine W)
    (script : Nat → Except AppError MessagesResponse) (cancel : Nat → Bool) (w : W)
    (initialMessage : String) : RunResult W :=
  runLoop eng script cancel w [⟨"user", .text initialMessage⟩] 0 0 0 [] ⟨0, 0, 0, 0⟩

/-! Unfolding lemmas for the retry loop and the turn loop. -/

theorem sendWithRetry_ok {cfg script cancel attempt check retries acc r}
    (h : script attempt = .ok r) :
    sendWithRetry cfg script cancel attempt check retries acc =
      .got r ⟨attempt + 1, check, acc⟩ := by
  rw [sendWithRetry.eq_def, h]

theorem sendWithRetry_rl_halt {cfg script cancel attempt check retries acc msg}
    (h : script attempt = .error (.claudeRateLimited msg))
    (hstop : cfg.enabled = false ∨ cfg.max_retries ≤ retries) :
    sendWithRetry cfg script cancel attempt check retries acc =
      .halt (.rateLimited msg) ⟨attempt + 1, check, acc⟩ := by
  rw [sendWithRetry.eq_def, h]
  simp only [dif_pos hstop]

theorem sendWithRetry_rl_cancelled {cfg script cancel attempt check retries acc msg}
    (h : script attempt = .error (.claudeRateLimited msg))
    (hen : cfg.enabled = true) (hlt : retries < cfg.max_retries)
    (hc : cancel check = true) :
    sendWithRetry cfg script cancel attempt check retries acc =
      .halt .cancelled
        ⟨attempt + 1, check + 1, acc ++ [cfg.initial_backoff * saturatingPow2 retries]⟩ := by
  rw [sendWithRetry.eq_def, h]
  have hcond : ¬(cfg.enabled = false ∨ cfg.max_retries ≤ retries) := by
    push_neg
    exact ⟨by simp [hen], hlt⟩
  simp only [dif_neg hcond, hc, if_pos]

theorem sendWithRetry_rl_step {cfg script cancel attempt check retries acc msg}
    (h : script attempt = .error (.claudeRateLimited msg))
    (hen : cfg.enabled = true) (hlt : retries < cfg.max_retries)
    (hc : cancel check = false) :
    sendWithRetry cfg script cancel attempt check retries acc =
      sendWithRetry cfg script cancel (attempt + 1) (check + 1) (retries + 1)
        (acc ++ [cfg.initial_backoff * saturatingPow2 retries]) := by
  rw [sendWithRetry.eq_def, h]
  have hcond : ¬(cfg.enabled = false ∨ cfg.max_retries ≤ retries) := by
    push_neg
    exact ⟨by simp [hen], hlt⟩
  simp only [dif_neg hcond, hc, Bool.false_eq_true, if_neg, if_false]

theorem sendWithRetry_failed {cfg script cancel attempt check retries acc e}
    (h : script attempt = .error e) (hne : ∀ msg, e ≠ .claudeRateLimited msg) :
    sendWithRetry cfg script cancel attempt check retries acc =
      .halt (.failed ("Claude API error: " ++ e.display)) ⟨attempt + 1, check, acc⟩ := by
  rw [sendWithRetry.eq_def, h]
  cases e with
  | claudeRateLimited msg => exact absurd rfl (hne msg)
  | _ => rfl

def turnLimitMsg : String :=
  "Agent reached maximum number of turns without completing the task."

theorem runLoop_turnLimit {W : Type} {eng : AgentEngine W} {script cancel w messages turn
    attempt check backoffs totals} (h : eng.max_turns ≤ turn) :
    runLoop eng script cancel w messages turn attempt check backoffs totals =
      ⟨.turnLimitReached turnLimitMsg, w, messages, attempt, check, backoffs, totals⟩ := by
  rw [runLoop.eq_def]
  simp only [dif_pos h]
  rfl

theorem runLoop_cancelled {W : Type} {eng : AgentEngine W} {script cancel w messages turn
    attempt check backoffs totals} (h : turn < eng.max_turns) (hc : cancel check = true) :
    runLoop eng script cancel w messages turn attempt check backoffs totals =
      ⟨.cancelled, w, messages, attempt, check + 1, backoffs, totals⟩ := by
  rw [runLoop.eq_def]
  simp only [dif_neg (by omega : ¬ eng.max_turns ≤ turn), hc, if_pos]

theorem runLoop_halt {W : Type} {eng : AgentEngine W} {script cancel w messages turn
    attempt check backoffs totals outcome st} (h : turn < eng.max_turns)
    (hc : cancel check = false)
    (hs : sendWithRetry eng.rate_limit script cancel attempt (check + 1) 0 [] =
      .halt outcome st) :
    runLoop eng script cancel w messages turn attempt check backoffs totals =
      ⟨outcome, w, messages, st.attempt, st.check, backoffs ++ st.backoffs, totals⟩ := by
  rw [runLoop.eq_def]
  simp only [dif_neg (by omega : ¬ eng.max_turns ≤ turn), hc, Bool.false_eq_true, if_false, hs]

theorem runLoop_end_turn {W : Type} {eng : AgentEngine W} {script cancel w messages turn
    attempt check backoffs totals resp st} (h : turn < eng.max_turns)
    (hc : cancel check = false)
    (hs : sendWithRetry eng.rate_limit script cancel attempt (check + 1) 0 [] = .got resp st)
    (hstop : resp.stopReason = some "end_turn") :
    runLoop eng script cancel w messages turn attempt check backoffs totals =
      ⟨.completed (extractText resp.content), w, messages, st.attempt, st.check,
        backoffs ++ st.backoffs, totals.add resp.usage⟩ := by
  rw [runLoop.eq_def]
  simp only [dif_neg (by omega : ¬ eng.max_turns ≤ turn), hc, Bool.false_eq_true, if_false,
    hs, hstop, Option.getD_some, if_pos]

theorem runLoop_tool_use_clar {W : Type} {eng : AgentEngine W} {script cancel w messages turn
    attempt check backoffs totals resp st w1 results q} (h : turn < eng.max_turns)
    (hc : cancel check = false)
    (hs : sendWithRetry eng.rate_limit script cancel attempt (check + 1) 0 [] = .got resp st)
    (hstop : resp.stopReason = some "tool_use")
    (hpb : processBlocks eng w resp.content = (w1, results, some q)) :
    runLoop eng script cancel w messages turn attempt check backoffs totals =
      ⟨.clarificationNeeded q, w1, messages ++ [⟨"assistant", .blocks resp.content⟩],
        st.attempt, st.check, backoffs ++ st.backoffs, totals.add resp.usage⟩ := by
  rw [runLoop.eq_def]
  simp only [dif_neg (by omega : ¬ eng.max_turns ≤ turn), hc, Bool.false_eq_true, if_false,
    hs, hstop, Option.getD_some, hpb]
  rfl

theorem runLoop_tool_use_next {W : Type} {eng : AgentEngine W} {script cancel w messages turn
    attempt check backoffs totals resp st w1 results} (h : turn < eng.max_turns)
    (hc : cancel check = false)
    (hs : sendWithRetry eng.rate_limit script cancel attempt (check + 1) 0 [] = .got resp st)
    (hstop : resp.stopReason = some "tool_use")
    (hpb : processBlocks eng w resp.content = (w1, results, none)) :
    runLoop eng script cancel w messages turn attempt check backoffs totals =
      runLoop eng script cancel w1
        (messages ++ [⟨"assistant", .blocks resp.content⟩, ⟨"user", .blocks results⟩])
        (turn + 1) st.attempt st.check (backoffs ++ st.backoffs) (totals.add resp.usage) := by
  rw [runLoop.eq_def]
  simp only [dif_neg (by omega : ¬ eng.max_turns ≤ turn), hc, Bool.false_eq_true, if_false,
    hs, hstop, Option.getD_some, hpb]
  simp [List.append_assoc]

theorem runLoop_failed_stop {W : Type} {eng : AgentEngine W} {script cancel w messages turn
    attempt check backoffs totals resp st other} (h : turn < eng.max_turns)
    (hc : cancel check = false)
    (hs : sendWithRetry eng.rate_limit script cancel attempt (check + 1) 0 [] = .got resp st)
    (hstop : resp.stopReason = some other) (h1 : other ≠ "end_turn") (h2 : other ≠ "tool_use")
    (h3 : other ≠ "max_tokens") :
    runLoop eng script cancel w messages turn attempt check backoffs totals =
      ⟨.failed ("Unexpected stop reason: " ++ other), w, messages, st.attempt, st.check,
        backoffs ++ st.backoffs, totals.add resp.usage⟩ := by
  rw [runLoop.eq_def]
  simp only [dif_neg (by omega : ¬ eng.max_turns ≤ turn), hc, Bool.false_eq_true, if_false,
    hs, hstop, Option.getD_some, if_neg h1, if_neg h2, if_neg h3]

/-- Concatenating block lists under the tool-dispatch loop, provided the
first part does not itself request clarification. -/
theorem processBlocks_append {W : Type} (eng : AgentEngine W) (w : W)
    (pre rest : List ContentBlock) (h : (processBlocks eng w pre).2.2 = none) :
    processBlocks eng w (pre ++ rest) =
      ((processBlocks eng (processBlocks eng w pre).1 rest).1,
        (processBlocks eng w pre).2.1 ++
          (processBlocks eng (processBlocks eng w pre).1 rest).2.1,
        (processBlocks eng (processBlocks eng w pre).1 rest).2.2) := by
  induction pre generalizing w with
  | nil => simp [processBlocks]
  | cons b bs ih =>
      cases b with
      | text t =>
          simpa [processBlocks] using ih w (by simpa [processBlocks] using h)
      | toolResult a c e =>
          simpa [processBlocks] using ih w (by simpa [processBlocks] using h)
      | toolUse id name input =>
          cases hr : (execute_tool eng w name input).2 with
          | ok out =>
              cases out with
              | success s =>
                  have h2 : (processBlocks eng (execute_tool eng w name input).1 bs).2.2 =
                      none := by
                    simp only [processBlocks, hr] at h
                    exact h
                  simp only [List.cons_append, processBlocks, hr, List.append_eq]
                  rw [ih _ h2]
              | error s =>
                  have h2 : (processBlocks eng (execute_tool eng w name input).1 bs).2.2 =
                      none := by
                    simp only [processBlocks, hr] at h
                    exact h
                  simp only [List.cons_append, processBlocks, hr, List.append_eq]
                  rw [ih _ h2]
              | clarificationNeeded q =>
                  exfalso
                  simp only [processBlocks, hr] at h
                  exact Option.noConfusion h
          | error e =>
              have h2 : (processBlocks eng (execute_tool eng w name input).1 bs).2.2 =
                  none := by
                simp only [processBlocks, hr] at h
                exact h
              simp only [List.cons_append, processBlocks, hr, List.append_eq]
              rw [ih _ h2]

/-- `AskClarificationTool::execute` from src/agent/tools/ask_clarification.rs. -/
def askClarificationExec {W : Type} (w : W) (input : ToolInput) :
    W × Except AppError ToolOutput :=
  (w, .ok (match input.lookup "question" with
    | some q => .clarificationNeeded q
    | none => .error "Missing 'question' parameter"))

def askClarificationTool (W : Type) : ToolModel W :=
  ⟨"ask_clarification", askClarificationExec⟩

/-- C5: the rate-limit retry sub-protocol. On a RateLimited client
response: with retrying disabled or the retry count at the configured
maximum, the run halts with outcome RateLimited; otherwise the retry
count is incremented, the loop sleeps initial_backoff * 2^(retries-1)
(saturating u32 power), re-checks the cancellation predicate (true halts
the run as Cancelled), and resends. With max_retries = 2 and a client
that always returns 429, the run returns RateLimited after exactly 2
retries, i.e. 3 total send attempts and backoffs [b*2^0, b*2^1]. -/
theorem c5_rate_limit_retry_protocol :
    (∀ (cfg : RateLimitConfig) script cancel attempt check retries acc msg,
      script attempt = .error (.claudeRateLimited msg) →
      cfg.enabled = false ∨ cfg.max_retries ≤ retries →
      sendWithRetry cfg script cancel attempt check retries acc =
        .halt (.rateLimited msg) ⟨attempt + 1, check, acc⟩)
    ∧ (∀ (cfg : RateLimitConfig) script cancel attempt check retries acc msg,
      script attempt = .error (.claudeRateLimited msg) →
      cfg.enabled = true → retries < cfg.max_retries → cancel check = true →
      sendWithRetry cfg script cancel attempt check retries acc =
        .halt .cancelled
          ⟨attempt + 1, check + 1, acc ++ [cfg.initial_backoff * saturatingPow2 retries]⟩)
    ∧ (∀ (cfg : RateLimitConfig) script cancel attempt check retries acc msg,
      script attempt = .error (.claudeRateLimited msg) →
      cfg.enabled = true → retries < cfg.max_retries → cancel check = false →
      sendWithRetry cfg script cancel attempt check retries acc =
        sendWithRetry cfg script cancel (attempt + 1) (check + 1) (retries + 1)
          (acc ++ [cfg.initial_backoff * saturatingPow2 retries]))
    ∧ (∀ (W : Type) (eng : AgentEngine W) (w : W) (b : Nat) msg init,
      eng.rate_limit = ⟨true, 2, b⟩ → 0 < eng.max_turns →
      eng.run (fun _ => .error (.claudeRateLimited msg)) (fun _ => false) w init =
        ⟨.rateLimited msg, w, [⟨"user", .text init⟩], 3, 3, [b * 1, b * 2], ⟨0, 0, 0, 0⟩⟩) := by
  refine ⟨fun cfg script cancel attempt check retries acc msg h hstop =>
      sendWithRetry_rl_halt h hstop,
    fun cfg script cancel attempt check retries acc msg h hen hlt hc =>
      sendWithRetry_rl_cancelled h hen hlt hc,
    fun cfg script cancel attempt check retries acc msg h hen hlt hc =>
      sendWithRetry_rl_step h hen hlt hc, ?_⟩
  intro W eng w b msg init hrl hmax
  have hs : sendWithRetry eng.rate_limit (fun _ => .error (.claudeRateLimited msg))
      (fun _ => false) 0 1 0 [] =
      .halt (.rateLimited msg) ⟨3, 3, [b * 1, b * 2]⟩ := by
    rw [hrl]
    rw [sendWithRetry_rl_step rfl rfl (by norm_num) rfl]
    rw [sendWithRetry_rl_step rfl rfl (by norm_num) rfl]
    rw [sendWithRetry_rl_halt rfl (Or.inr (by norm_num))]
    norm_num [saturatingPow2]
  unfold AgentEngine.run
  rw [runLoop_halt (by omega) rfl hs]
  rfl

def engC5 : AgentEngine Nat := ⟨[], 3, ⟨true, 2, 15⟩⟩

theorem c5_rate_limit_retry_protocol_witness :
    (sendWithRetry ⟨true, 2, 15⟩ (fun _ => .error (.claudeRateLimited "rl")) (fun _ => false)
        0 0 2 [] = .halt (.rateLimited "rl") ⟨1, 0, []⟩)
    ∧ (sendWithRetry ⟨true, 2, 15⟩ (fun _ => .error (.claudeRateLimited "rl")) (fun _ => true)
        0 0 0 [] = .halt .cancelled ⟨1, 1, [15 * saturatingPow2 0]⟩)
    ∧ (sendWithRetry ⟨true, 2, 15⟩ (fun _ => .error (.claudeRateLimited "rl")) (fun _ => false)
        0 0 0 [] = sendWithRetry ⟨true, 2, 15⟩ (fun _ => .error (.claudeRateLimited "rl"))
          (fun _ => false) 1 1 1 ([] ++ [15 * saturatingPow2 0]))
    ∧ engC5.run (fun _ => .error (.claudeRateLimited "rl")) (fun _ => false) 0 "go" =
        ⟨.rateLimited "rl", 0, [⟨"user", .text "go"⟩], 3, 3, [15 * 1, 15 * 2], ⟨0, 0, 0, 0⟩⟩ := by
  refine ⟨c5_rate_limit_retry_protocol.1 ⟨true, 2, 15⟩ _ _ 0 0 2 [] "rl" rfl
      (Or.inr (by norm_num)),
    c5_rate_limit_retry_protocol.2.1 ⟨true, 2, 15⟩ _ _ 0 0 0 [] "rl" rfl rfl (by norm_num) rfl,
    c5_rate_limit_retry_protocol.2.2.1 ⟨true, 2, 15⟩ _ _ 0 0 0 [] "rl" rfl rfl (by norm_num)
      rfl,
    c5_rate_limit_retry_protocol.2.2.2 Nat engC5 0 15 "rl" "go" rfl (by decide)⟩

/-- C7: if the cancellation predicate is true before the first turn, the
run returns Cancelled with zero client calls, for every script; and from
any reachable turn state, a true cancellation answer at the start of the
turn terminates the loop as Cancelled with no further client calls. -/
theorem c7_cancellation_checked_before_network :
    (∀ (W : Type) (eng : AgentEngine W) script cancel (w : W) init,
      0 < eng.max_turns → cancel 0 = true →
      eng.run script cancel w init =
        ⟨.cancelled, w, [⟨"user", .text init⟩], 0, 1, [], ⟨0, 0, 0, 0⟩⟩)
    ∧ (∀ (W : Type) (eng : AgentEngine W) script cancel (w : W) messages turn attempt check
        backoffs totals, turn < eng.max_turns → cancel check = true →
      runLoop eng script cancel w messages turn attempt check backoffs totals =
        ⟨.cancelled, w, messages, attempt, check + 1, backoffs, totals⟩) := by
  constructor
  · intro W eng script cancel w init hmax hc
    unfold AgentEngine.run
    exact runLoop_cancelled (by omega) hc
  · intro W eng script cancel w messages turn attempt check backoffs totals hmax hc
    exact runLoop_cancelled hmax hc

theorem c7_cancellation_checked_before_network_witness :
    engC5.run (fun _ => .error (.internal "never sent")) (fun _ => true) 0 "go" =
      ⟨.cancelled, 0, [⟨"user", .text "go"⟩], 0, 1, [], ⟨0, 0, 0, 0⟩⟩
    ∧ runLoop engC5 (fun _ => .error (.internal "never sent")) (fun _ => true) 0 [] 1 4 7 [9]
        ⟨1, 2, 3, 4⟩ = ⟨.cancelled, 0, [], 4, 8, [9], ⟨1, 2, 3, 4⟩⟩ :=
  ⟨c7_cancellation_checked_before_network.1 Nat engC5 _ _ 0 "go" (by decide) rfl,
    c7_cancellation_checked_before_network.2 Nat engC5 _ _ 0 [] 1 4 7 [9] ⟨1, 2, 3, 4⟩
      (by decide) rfl⟩

/-- C8: a tool_use response naming a tool absent from the registry does
not fail the run: the loop appends an error-flagged tool result carrying
a generic internal-error message and proceeds to the next turn (here the
next turn completes normally). -/
theorem c8_unknown_tool_not_loop_fatal :
    ∀ (W : Type) (eng : AgentEngine W) (w : W) cancel tid name input rid0 rid1 u0 u1 done init,
      eng.tools.find? (fun t => t.name == name) = none →
      2 ≤ eng.max_turns → (∀ n, cancel n = false) →
      eng.run
        (fun n => if n = 0 then
            .ok ⟨rid0, [.toolUse tid name input], some "tool_use", u0⟩
          else .ok ⟨rid1, [.text done], some "end_turn", u1⟩)
        cancel w init =
        ⟨.completed done, w,
          [⟨"user", .text init⟩,
            ⟨"assistant", .blocks [.toolUse tid name input]⟩,
            ⟨"user", .blocks [.toolResult tid
              ("Internal error: Agent error: Unknown tool: " ++ name) (some true)]⟩],
          2, 2, [], ((UsageTotals.mk 0 0 0 0).add u0).add u1⟩ := by
  intro W eng w cancel tid name input rid0 rid1 u0 u1 done init hfind hmax hcancel
  have hstr : "Internal error: " ++ ("Agent error: " ++ ("Unknown tool: " ++ name)) =
      "Internal error: Agent error: Unknown tool: " ++ name := by
    rw [← String.append_assoc, ← String.append_assoc]
    rfl
  have hpb : processBlocks eng w [.toolUse tid name input] =
      (w, [.toolResult tid ("Internal error: Agent error: Unknown tool: " ++ name)
        (some true)], none) := by
    simp [processBlocks, execute_tool, hfind, AppError.display, hstr]
  unfold AgentEngine.run
  rw [runLoop_tool_use_next (by omega) (hcancel 0) (sendWithRetry_ok rfl) rfl hpb]
  rw [runLoop_end_turn (by omega) (hcancel 1) (sendWithRetry_ok rfl) rfl]
  have hext : extractText [ContentBlock.text done] = done := rfl
  rw [hext]
  simp

def engC8 : AgentEngine Nat := ⟨[], 2, ⟨true, 5, 15⟩⟩

theorem c8_unknown_tool_not_loop_fatal_witness :
    engC8.run
      (fun n => if n = 0 then
          .ok ⟨"r0", [.toolUse "t1" "no_such_tool" []], some "tool_use", ⟨1, 1, none, none⟩⟩
        else .ok ⟨"r1", [.text "done"], some "end_turn", ⟨1, 1, none, none⟩⟩)
      (fun _ => false) 0 "go" =
      ⟨.completed "done", 0,
        [⟨"user", .text "go"⟩,
          ⟨"assistant", .blocks [.toolUse "t1" "no_such_tool" []]⟩,
          ⟨"user", .blocks [.toolResult "t1"
            ("Internal error: Agent error: Unknown tool: " ++ "no_such_tool") (some true)]⟩],
        2, 2, [],
        ((UsageTotals.mk 0 0 0 0).add ⟨1, 1, none, none⟩).add ⟨1, 1, none, none⟩⟩ :=
  c8_unknown_tool_not_loop_fatal Nat engC8 0 (fun _ => false) "t1" "no_such_tool" [] "r0" "r1"
    ⟨1, 1, none, none⟩ ⟨1, 1, none, none⟩ "done" "go" rfl (by decide) (fun _ => rfl)

/-- C10: when a tool_use response holds blocks before and after an
ask_clarification call, every earlier tool block is executed and its
world effects persist (final world is the one the earlier blocks
produced), the blocks after the clarification are never executed (the
result does not depend on them), the run returns ClarificationNeeded,
and none of the collected tool results are appended to the
conversation. -/
theorem c10_clarification_drops_results_keeps_effects :
    ∀ (W : Type) (eng : AgentEngine W) (w w1 : W) cancel pre post results tid
      (input : ToolInput) q rid u0 init,
      eng.tools.find? (fun t => t.name == "ask_clarification") =
        some (askClarificationTool W) →
      input.lookup "question" = some q →
      processBlocks eng w pre = (w1, results, none) →
      0 < eng.max_turns → cancel 0 = false →
      eng.run (fun _ => .ok ⟨rid, pre ++ .toolUse tid "ask_clarification" input :: post,
          some "tool_use", u0⟩) cancel w init =
        ⟨.clarificationNeeded q, w1,
          [⟨"user", .text init⟩,
            ⟨"assistant", .blocks (pre ++ .toolUse tid "ask_clarification" input :: post)⟩],
          1, 1, [], (UsageTotals.mk 0 0 0 0).add u0⟩ := by
  intro W eng w w1 cancel pre post results tid input q rid u0 init hfind hq hpre hmax hc
  have hask : execute_tool eng w1 "ask_clarification" input =
      (w1, .ok (.clarificationNeeded q)) := by
    simp [execute_tool, hfind, askClarificationTool, askClarificationExec, hq]
  have htail : processBlocks eng w1 (ContentBlock.toolUse tid "ask_clarification" input
      :: post) = (w1, [], some q) := by
    simp only [processBlocks, hask]
  have hpb : processBlocks eng w (pre ++ ContentBlock.toolUse tid "ask_clarification" input
      :: post) = (w1, results ++ [], some q) := by
    rw [processBlocks_append eng w pre _ (by rw [hpre])]
    simp only [hpre, htail]
  unfold AgentEngine.run
  rw [runLoop_tool_use_clar (by omega) hc (sendWithRetry_ok rfl) rfl hpb]
  simp

def engC10 : AgentEngine Nat :=
  ⟨[⟨"bump", fun w _ => (w + 1, .ok (.success "bumped"))⟩, askClarificationTool Nat], 2,
    ⟨true, 5, 15⟩⟩

theorem c10_clarification_drops_results_keeps_effects_witness :
    engC10.run (fun _ => .ok ⟨"r0",
        [.toolUse "t0" "bump" [], .toolUse "t1" "ask_clarification" [("question", "what?")],
          .toolUse "t2" "bump" []], some "tool_use", ⟨1, 1, none, none⟩⟩)
      (fun _ => false) 0 "go" =
      ⟨.clarificationNeeded "what?", 1,
        [⟨"user", .text "go"⟩,
          ⟨"assistant", .blocks [.toolUse "t0" "bump" [],
            .toolUse "t1" "ask_clarification" [("question", "what?")],
            .toolUse "t2" "bump" []]⟩],
        1, 1, [], (UsageTotals.mk 0 0 0 0).add ⟨1, 1, none, none⟩⟩ :=
  c10_clarification_drops_results_keeps_effects Nat engC10 0 1 (fun _ => false)
    [.toolUse "t0" "bump" []] [.toolUse "t2" "bump" []]
    [.toolResult "t0" "bumped" none] "t1" [("question", "what?")] "what?" "r0"
    ⟨1, 1, none, none⟩ "go" rfl rfl (by simp [processBlocks, execute_tool, engC10]) (by decide)
    rfl

/-!
Part 4 models the workspace guard `WorkspaceManager::verify_path` of
src/workspace/manager.rs and `ReadFileTool::execute` of
src/agent/tools/read_file.rs over an explicit filesystem. An absolute
path is a list of component names; a caller-supplied relative path is a
list of components that may contain parent-directory components (the
normalization Rust's `Path::components` performs on separators and `.`
is the path parser below). A symbolic link carries an absolute,
already-resolved target; links whose target passes through further
links are outside the model. `FS.resolve` plays the role of
stat/canonicalize: it resolves dot-dot components against the resolved
prefix and follows links, failing when a component is missing, a file
occurs mid-path, or a final link dangles.
-/

inductive PComp where
  | normal (s : String)
  | dotdot
deriving DecidableEq

inductive NodeKind where
  | dir
  | file (content : String)
  | symlink (target : List String)
deriving DecidableEq

structure FS where
  nodes : List (List String × NodeKind)
deriving DecidableEq

def FS.lookup (fs : FS) (p : List String) : Option NodeKind :=
  (fs.nodes.find? (fun e => e.1 == p)).map (fun e => e.2)

def asPath (p : List String) : List PComp := p.map PComp.normal

/-- Path resolution (`stat`/`canonicalize`): walk the components from
the already-resolved prefix `acc`. -/
def resolveGo (fs : FS) (acc : List String) : List PComp → Option (List String)
  | [] => some acc
  | .dotdot :: rest => resolveGo fs acc.dropLast rest
  | .normal s :: rest =>
      match fs.lookup (acc ++ [s]) with
      | some .dir => resolveGo fs (acc ++ [s]) rest
      | some (.file _) => if rest.isEmpty then some (acc ++ [s]) else none
      | some (.symlink tgt) =>
          match fs.lookup tgt with
          | some .dir => resolveGo fs tgt rest
          | some (.file _) => if rest.isEmpty then some tgt else none
          | _ => none
      | none => none

def FS.resolve (fs : FS) (p : List PComp) : Option (List String) :=
  resolveGo fs [] p

/-- `std::fs::create_dir_all`: walk the components, creating each
missing directory along the way (new nodes are appended to the node
list). -/
def createDirAllGo (fs : FS) (acc : List String) : List PComp → Option FS
  | [] => some fs
  | .dotdot :: rest => createDirAllGo fs acc.dropLast rest
  | .normal s :: rest =>
      match fs.lookup (acc ++ [s]) with
      | some .dir => createDirAllGo fs (acc ++ [s]) rest
      | some (.file _) => none
      | some (.symlink tgt) =>
          match fs.lookup tgt with
          | some .dir => createDirAllGo fs tgt rest
          | _ => none
      | none => createDirAllGo ⟨fs.nodes ++ [(acc ++ [s], .dir)]⟩ (acc ++ [s]) rest

def create_dir_all (fs : FS) (p : List PComp) : Option FS := createDirAllGo fs [] p

/-- `requested_path.display()`. -/
def renderPath (p : List PComp) : String :=
  String.intercalate "/" (p.map fun c =>
    match c with
    | .normal s => s
    | .dotdot => "..")

/-- `WorkspaceManager::verify_path`, returning the (possibly mutated —
the parent-creation side effect is real I/O) filesystem together with
the verification result. -/
def verify_path (fs : FS) (root : List String) (p : List PComp) :
    FS × Except AppError (List String) :=
  let full := asPath root ++ p
  match FS.resolve fs full with
  | some canonical =>
      match FS.resolve fs (asPath root) with
      | none => (fs, .error (.workspace "Failed to resolve workspace root"))
      | some canonicalRoot =>
          if canonicalRoot.isPrefixOf canonical then (fs, .ok canonical)
          else (fs, .error (.workspace ("Path traversal detected: " ++ renderPath p ++
            " is outside workspace")))
  | none =>
      if full.isEmpty then (fs, .error (.workspace "Invalid file path"))
      else
        let parent := full.dropLast
        match (if (FS.resolve fs parent).isSome then some fs else create_dir_all fs parent) with
        | none => (fs, .error (.workspace "Failed to create directory"))
        | some fs1 =>
            match FS.resolve fs1 parent with
            | none => (fs1, .error (.workspace "Failed to resolve path"))
            | some canonicalParent =>
                match full.getLast? with
                | some (.normal name) =>
                    match FS.resolve fs1 (asPath root) with
                    | none => (fs1, .error (.workspace "Failed to resolve workspace root"))
                    | some canonicalRoot =>
                        if canonicalRoot.isPrefixOf (canonicalParent ++ [name]) then
                          (fs1, .ok (canonicalParent ++ [name]))
                        else
                          (fs1, .error (.workspace ("Path traversal detected: " ++
                            renderPath p ++ " is outside workspace")))
                | _ => (fs1, .error (.workspace "Invalid file name"))

/-- Split a relative path string on the separator, the way
`Path::components` tokenizes it. -/
def splitSlashGo (cur : List Char) : List Char → List (List Char)
  | [] => [cur.reverse]
  | c :: rest =>
      if c = '/' then cur.reverse :: splitSlashGo [] rest
      else splitSlashGo (c :: cur) rest

/-- Empty and `.` components are normalized away; `..` is a
parent-directory component. -/
def componentOf (s : String) : Option PComp :=
  if s = "" then none
  else if s = "." then none
  else if s = ".." then some .dotdot
  else some (.normal s)

def parsePath (s : String) : List PComp :=
  ((splitSlashGo [] s.toList).map (fun cs => String.mk cs)).filterMap componentOf

/-- `ReadFileTool::execute` from src/agent/tools/read_file.rs. -/
def readFileExec (maxFileSize : Nat) (fs : FS) (root : List String) (input : ToolInput) :
    FS × Except AppError ToolOutput :=
  match input.lookup "path" with
  | none => (fs, .ok (.error "Missing 'path' parameter"))
  | some pathStr =>
      match verify_path fs root (parsePath pathStr) with
      | (fs1, .error e) => (fs1, .ok (.error ("Invalid path: " ++ e.display)))
      | (fs1, .ok full) =>
          match FS.resolve fs1 (asPath full) with
          | none => (fs1, .ok (.error ("File not found: " ++ pathStr)))
          | some q =>
              match fs1.lookup q with
              | some (.file content) =>
                  if maxFileSize < content.length then
                    (fs1, .ok (.error ("File is too large (" ++ toString content.length ++
                      " bytes, max " ++ toString maxFileSize ++ " bytes)")))
                  else
                    (fs1, .ok (.success content))
              | _ => (fs1, .ok (.error (pathStr ++ " is not a file")))

/-- Every prefix extension of `acc` along `xs` is an existing directory. -/
def dirChain (fs : FS) (acc : List String) : List String → Bool
  | [] => true
  | s :: rest => (fs.lookup (acc ++ [s]) == some .dir) && dirChain fs (acc ++ [s]) rest

theorem resolveGo_chain (fs : FS) (xs : List String) :
    ∀ (acc : List String) (ys : List PComp), dirChain fs acc xs = true →
      resolveGo fs acc (asPath xs ++ ys) = resolveGo fs (acc ++ xs) ys := by
  induction xs with
  | nil =>
      intro acc ys _
      simp [asPath]
  | cons s rest ih =>
      intro acc ys h
      simp only [dirChain, Bool.and_eq_true, beq_iff_eq] at h
      obtain ⟨h1, h2⟩ := h
      have hsplit : asPath (s :: rest) ++ ys = .normal s :: (asPath rest ++ ys) := rfl
      rw [hsplit]
      simp only [resolveGo, h1]
      rw [ih (acc ++ [s]) ys h2]
      simp

theorem createDirAllGo_chain (fs : FS) (xs : List String) :
    ∀ (acc : List String) (ys : List PComp), dirChain fs acc xs = true →
      createDirAllGo fs acc (asPath xs ++ ys) = createDirAllGo fs (acc ++ xs) ys := by
  induction xs with
  | nil =>
      intro acc ys _
      simp [asPath]
  | cons s rest ih =>
      intro acc ys h
      simp only [dirChain, Bool.and_eq_true, beq_iff_eq] at h
      obtain ⟨h1, h2⟩ := h
      have hsplit : asPath (s :: rest) ++ ys = .normal s :: (asPath rest ++ ys) := rfl
      rw [hsplit]
      simp only [createDirAllGo, h1]
      rw [ih (acc ++ [s]) ys h2]
      simp

theorem dirChain_append (fs : FS) (xs : List String) :
    ∀ (acc ys : List String), dirChain fs acc (xs ++ ys) =
      (dirChain fs acc xs && dirChain fs (acc ++ xs) ys) := by
  induction xs with
  | nil =>
      intro acc ys
      simp only [List.nil_append, List.append_nil, dirChain, Bool.true_and]
  | cons s rest ih =>
      intro acc ys
      rw [List.cons_append]
      have hl : dirChain fs acc (s :: (rest ++ ys)) =
          ((fs.lookup (acc ++ [s]) == some .dir) && dirChain fs (acc ++ [s]) (rest ++ ys)) :=
        rfl
      have hr : dirChain fs acc (s :: rest) =
          ((fs.lookup (acc ++ [s]) == some .dir) && dirChain fs (acc ++ [s]) rest) := rfl
      rw [hl, hr, ih (acc ++ [s]) ys, Bool.and_assoc]
      have hacc : acc ++ s :: rest = acc ++ [s] ++ rest := by simp
      rw [hacc]

theorem lookup_append_of_found (fs : FS) (k : List String) (v : NodeKind)
    (p : List String) (x : NodeKind) (h : fs.lookup p = some x) :
    FS.lookup ⟨fs.nodes ++ [(k, v)]⟩ p = some x := by
  simp only [FS.lookup, List.find?_append] at h ⊢
  cases hf : fs.nodes.find? (fun e => e.1 == p) with
  | none => simp [hf] at h
  | some e =>
      rw [hf] at h
      simp only [Option.map_some'] at h
      simp [Option.or, h, hf]

theorem lookup_append_self (fs : FS) (k : List String) (v : NodeKind)
    (h : fs.lookup k = none) : FS.lookup ⟨fs.nodes ++ [(k, v)]⟩ k = some v := by
  simp only [FS.lookup, List.find?_append] at h ⊢
  cases hf : fs.nodes.find? (fun e => e.1 == k) with
  | some e => simp [hf] at h
  | none => simp [hf, Option.or, List.find?]

theorem lookup_append_of_ne (fs : FS) (k : List String) (v : NodeKind)
    (p : List String) (h : fs.lookup p = none) (hne : p ≠ k) :
    FS.lookup ⟨fs.nodes ++ [(k, v)]⟩ p = none := by
  simp only [FS.lookup, List.find?_append] at h ⊢
  cases hf : fs.nodes.find? (fun e => e.1 == p) with
  | some e => simp [hf] at h
  | none =>
      have hkp : (k == p) = false := by
        simp only [beq_eq_false_iff_ne, ne_eq]
        exact fun hh => hne hh.symm
      simp [hf, Option.or, List.find?, hkp]

theorem dirChain_append_node (fs : FS) (k : List String) (v : NodeKind) (xs : List String) :
    ∀ acc, dirChain fs acc xs = true → dirChain ⟨fs.nodes ++ [(k, v)]⟩ acc xs = true := by
  induction xs with
  | nil =>
      intro acc _
      rfl
  | cons s rest ih =>
      intro acc h
      simp only [dirChain, Bool.and_eq_true, beq_iff_eq] at h ⊢
      obtain ⟨h1, h2⟩ := h
      exact ⟨lookup_append_of_found fs k v _ _ h1, ih (acc ++ [s]) h2⟩

theorem isPrefixOf_self_append (l t : List String) : l.isPrefixOf (l ++ t) = true := by
  rw [List.isPrefixOf_iff_prefix]
  exact List.prefix_append l t

/-- C4: for a relative path whose target resolves, the guard rejects
exactly when the resolution (dot-dot and symlink aware) escapes the
canonicalized root, and otherwise accepts and returns the canonical
path; for a non-existent target whose parent directory resolves, the
same dichotomy holds on canonical parent plus file name. -/
theorem c4_verify_path_guards_root :
    (∀ (fs : FS) (root : List String) (p : List PComp) (q croot : List String),
      FS.resolve fs (asPath root ++ p) = some q →
      FS.resolve fs (asPath root) = some croot →
      croot.isPrefixOf q = false →
      verify_path fs root p = (fs, .error (.workspace ("Path traversal detected: " ++
        renderPath p ++ " is outside workspace"))))
    ∧ (∀ (fs : FS) (root : List String) (p : List PComp) (q croot : List String),
      FS.resolve fs (asPath root ++ p) = some q →
      FS.resolve fs (asPath root) = some croot →
      croot.isPrefixOf q = true →
      verify_path fs root p = (fs, .ok q))
    ∧ (∀ (fs : FS) (root : List String) (p : List PComp) (cparent : List String)
        (name : String) (croot : List String),
      FS.resolve fs (asPath root ++ p) = none →
      FS.resolve fs ((asPath root ++ p).dropLast) = some cparent →
      (asPath root ++ p).getLast? = some (.normal name) →
      FS.resolve fs (asPath root) = some croot →
      verify_path fs root p =
        (fs, if croot.isPrefixOf (cparent ++ [name]) then .ok (cparent ++ [name])
          else .error (.workspace ("Path traversal detected: " ++ renderPath p ++
            " is outside workspace")))) := by
  refine ⟨?_, ?_, ?_⟩
  · intro fs root p q croot hfull hroot hpref
    simp only [verify_path, hfull, hroot, hpref, Bool.false_eq_true, if_false]
  · intro fs root p q croot hfull hroot hpref
    simp only [verify_path, hfull, hroot, hpref, if_true]
  · intro fs root p cparent name croot hfull hparent hlast hroot
    have hfe : (asPath root ++ p).isEmpty = false := by
      cases p with
      | nil =>
          exfalso
          rw [List.append_nil] at hfull
          rw [hfull] at hroot
          exact Option.noConfusion hroot
      | cons c cs => simp
    simp only [verify_path, hfull, hfe, Bool.false_eq_true, if_false, hparent,
      Option.isSome_some, if_true, hlast, hroot]
    split <;> rfl

def fsW : FS := ⟨[(["w"], .dir), (["w", "sub"], .dir), (["w", "f.txt"], .file "hi"),
  (["out"], .dir), (["out", "x"], .file "secret"), (["w", "link"], .symlink ["out"])]⟩

theorem c4_verify_path_guards_root_witness :
    verify_path fsW ["w"] [.normal "link", .normal "x"] =
      (fsW, .error (.workspace "Path traversal detected: link/x is outside workspace"))
    ∧ verify_path fsW ["w"] [.normal "f.txt"] = (fsW, .ok ["w", "f.txt"])
    ∧ verify_path fsW ["w"] [.normal "sub", .normal "new.txt"] =
      (fsW, .ok ["w", "sub", "new.txt"])
    ∧ verify_path fsW ["w"] [.dotdot, .normal "out", .normal "e.txt"] =
      (fsW, .error (.workspace "Path traversal detected: ../out/e.txt is outside workspace"))
    := by
  have h1 := c4_verify_path_guards_root.1 fsW ["w"] [.normal "link", .normal "x"]
    ["out", "x"] ["w"] rfl rfl rfl
  have h2 := c4_verify_path_guards_root.2.1 fsW ["w"] [.normal "f.txt"]
    ["w", "f.txt"] ["w"] rfl rfl rfl
  have h3 := c4_verify_path_guards_root.2.2 fsW ["w"] [.normal "sub", .normal "new.txt"]
    ["w", "sub"] "new.txt" ["w"] rfl rfl rfl rfl
  have h4 := c4_verify_path_guards_root.2.2 fsW ["w"] [.dotdot, .normal "out", .normal "e.txt"]
    ["out"] "e.txt" ["w"] rfl rfl rfl rfl
  refine ⟨?_, ?_, ?_, ?_⟩
  · rw [h1]
    rfl
  · rw [h2]
  · rw [h3]
    rfl
  · rw [h4]
    rfl

def fsC3 : FS := ⟨[(["w"], .dir)]⟩

/-- C3 counterexample: a rejected path-traversal request does not leave
the filesystem unchanged — verifying the non-existent target
../evil/x.txt is rejected as traversal, yet the guard first created the
directory `evil` outside the workspace root. -/
theorem c3_rejected_traversal_mutates_fs :
    (verify_path fsC3 ["w"] (parsePath "../evil/x.txt")).2 =
      .error (.workspace "Path traversal detected: ../evil/x.txt is outside workspace")
    ∧ (verify_path fsC3 ["w"] (parsePath "../evil/x.txt")).1.lookup ["evil"] = some .dir
    ∧ (verify_path fsC3 ["w"] (parsePath "../evil/x.txt")).1 ≠ fsC3 := by
  refine ⟨rfl, rfl, ?_⟩
  decide

/-- C3 (amended): for an existing target the guard performs no
filesystem modification whether it accepts or rejects; for a
non-existent target it may first create missing parent directories
(possibly outside the root) before rejecting. In all cases a rejection
surfaces through read_file as a tool-level Error result, not as a
run-fatal error. -/
theorem c3_rejection_tool_level_and_read_only_for_existing :
    (∀ (fs : FS) (root : List String) (p : List PComp) (q : List String),
      FS.resolve fs (asPath root ++ p) = some q →
      (verify_path fs root p).1 = fs)
    ∧ (∀ (maxFileSize : Nat) (fs : FS) (root : List String) (input : ToolInput)
        (pathStr : String) (fs1 : FS) (e : AppError),
      input.lookup "path" = some pathStr →
      verify_path fs root (parsePath pathStr) = (fs1, .error e) →
      readFileExec maxFileSize fs root input =
        (fs1, .ok (.error ("Invalid path: " ++ e.display)))) := by
  constructor
  · intro fs root p q hfull
    simp only [verify_path, hfull]
    cases h2 : FS.resolve fs (asPath root) with
    | none => rfl
    | some croot =>
        by_cases hp : croot.isPrefixOf q = true
        · simp only [hp, if_true]
        · simp only [Bool.not_eq_true] at hp
          simp only [hp, Bool.false_eq_true, if_false]
  · intro maxFileSize fs root input pathStr fs1 e hpath hverify
    simp only [readFileExec, hpath, hverify]

theorem c3_rejection_tool_level_witness :
    (verify_path fsW ["w"] [.dotdot, .normal "out", .normal "x"]).1 = fsW
    ∧ readFileExec 100 fsC3 ["w"] [("path", "../evil/x.txt")] =
      (⟨[(["w"], .dir), (["evil"], .dir)]⟩,
        .ok (.error
          "Invalid path: Workspace error: Path traversal detected: ../evil/x.txt is outside workspace")) := by
  have h1 := c3_rejection_tool_level_and_read_only_for_existing.1 fsW ["w"]
    [.dotdot, .normal "out", .normal "x"] ["out", "x"] rfl
  have h2 := c3_rejection_tool_level_and_read_only_for_existing.2 100 fsC3 ["w"]
    [("path", "../evil/x.txt")] "../evil/x.txt" ⟨[(["w"], .dir), (["evil"], .dir)]⟩
    (.workspace "Path traversal detected: ../evil/x.txt is outside workspace") rfl (by rfl)
  refine ⟨h1, ?_⟩
  rw [h2]
  rfl

/-- C9: invoking read_file on a relative path a/b whose target and
parent do not exist makes the workspace guard create the missing parent
directory under the root as a side effect, even though the tool then
reports File not found — path verification of a non-existent target is
not read-only. -/
theorem c9_read_file_creates_missing_parents :
    ∀ (maxFileSize : Nat) (fs : FS) (root : List String) (a b pathStr : String)
      (input : ToolInput),
      input.lookup "path" = some pathStr →
      parsePath pathStr = [.normal a, .normal b] →
      dirChain fs [] root = true →
      fs.lookup (root ++ [a]) = none →
      fs.lookup (root ++ [a, b]) = none →
      readFileExec maxFileSize fs root input =
        (⟨fs.nodes ++ [(root ++ [a], .dir)]⟩, .ok (.error ("File not found: " ++ pathStr)))
      ∧ FS.lookup ⟨fs.nodes ++ [(root ++ [a], .dir)]⟩ (root ++ [a]) = some .dir
      ∧ (⟨fs.nodes ++ [(root ++ [a], .dir)]⟩ : FS) ≠ fs := by
  intro maxFileSize fs root a b pathStr input hpath hparse hchain hA hAB
  have hroot_res : FS.resolve fs (asPath root) = some root := by
    unfold FS.resolve
    have h := resolveGo_chain fs root [] [] hchain
    simpa using h
  have hfull_res : FS.resolve fs (asPath root ++ [PComp.normal a, PComp.normal b]) =
      none := by
    unfold FS.resolve
    rw [resolveGo_chain fs root [] [PComp.normal a, PComp.normal b] hchain]
    simp only [List.nil_append, resolveGo, hA]
  have hparent_res : FS.resolve fs (asPath root ++ [PComp.normal a]) = none := by
    unfold FS.resolve
    rw [resolveGo_chain fs root [] [PComp.normal a] hchain]
    simp only [List.nil_append, resolveGo, hA]
  have hcreate : create_dir_all fs (asPath root ++ [PComp.normal a]) =
      some ⟨fs.nodes ++ [(root ++ [a], .dir)]⟩ := by
    unfold create_dir_all
    rw [createDirAllGo_chain fs root [] [PComp.normal a] hchain]
    simp only [List.nil_append, createDirAllGo, hA]
  have hchain2 : dirChain ⟨fs.nodes ++ [(root ++ [a], .dir)]⟩ [] root = true :=
    dirChain_append_node fs (root ++ [a]) .dir root [] hchain
  have hA2 : FS.lookup ⟨fs.nodes ++ [(root ++ [a], .dir)]⟩ (root ++ [a]) = some .dir :=
    lookup_append_self fs (root ++ [a]) .dir hA
  have hparent_res2 : FS.resolve ⟨fs.nodes ++ [(root ++ [a], .dir)]⟩
      (asPath root ++ [PComp.normal a]) = some (root ++ [a]) := by
    unfold FS.resolve
    rw [resolveGo_chain _ root [] [PComp.normal a] hchain2]
    simp only [List.nil_append, resolveGo, hA2]
  have hroot_res2 : FS.resolve ⟨fs.nodes ++ [(root ++ [a], .dir)]⟩ (asPath root) =
      some root := by
    unfold FS.resolve
    have h := resolveGo_chain _ root [] [] hchain2
    simpa using h
  have hsplit : asPath root ++ [PComp.normal a, PComp.normal b] =
      (asPath root ++ [PComp.normal a]) ++ [PComp.normal b] := by simp
  have hdrop : (asPath root ++ [PComp.normal a, PComp.normal b]).dropLast =
      asPath root ++ [PComp.normal a] := by rw [hsplit, List.dropLast_concat]
  have hlast : (asPath root ++ [PComp.normal a, PComp.normal b]).getLast? =
      some (PComp.normal b) := by rw [hsplit, List.getLast?_concat]
  have hfe : (asPath root ++ [PComp.normal a, PComp.normal b]).isEmpty = false := by simp
  have hpre : root.isPrefixOf ((root ++ [a]) ++ [b]) = true := by
    rw [List.append_assoc]
    exact isPrefixOf_self_append root ([a] ++ [b])
  have hverify : verify_path fs root [PComp.normal a, PComp.normal b] =
      (⟨fs.nodes ++ [(root ++ [a], .dir)]⟩, .ok ((root ++ [a]) ++ [b])) := by
    simp only [verify_path, hfull_res, hfe, Bool.false_eq_true, if_false, hdrop,
      hparent_res, Option.isSome_none, hcreate, hparent_res2, hlast, hroot_res2, hpre,
      if_true]
  have hchain3 : dirChain ⟨fs.nodes ++ [(root ++ [a], .dir)]⟩ [] (root ++ [a]) = true := by
    rw [dirChain_append _ root [] [a]]
    simp only [List.nil_append]
    have hstep : dirChain ⟨fs.nodes ++ [(root ++ [a], .dir)]⟩ root [a] = true := by
      simp [dirChain, hA2]
    rw [hchain2, hstep]
    rfl
  have hAB2 : FS.lookup ⟨fs.nodes ++ [(root ++ [a], .dir)]⟩ ((root ++ [a]) ++ [b]) =
      none := by
    have h1 : (root ++ [a]) ++ [b] = root ++ [a, b] := by simp
    rw [h1]
    refine lookup_append_of_ne fs (root ++ [a]) .dir (root ++ [a, b]) hAB ?_
    intro hcontra
    have h2 := congrArg List.length hcontra
    simp at h2
  have hread_res : FS.resolve ⟨fs.nodes ++ [(root ++ [a], .dir)]⟩
      (asPath ((root ++ [a]) ++ [b])) = none := by
    have hmap : asPath ((root ++ [a]) ++ [b]) =
        asPath (root ++ [a]) ++ [PComp.normal b] := by simp [asPath]
    rw [hmap]
    unfold FS.resolve
    rw [resolveGo_chain _ (root ++ [a]) [] [PComp.normal b] hchain3]
    simp only [List.nil_append, resolveGo, hAB2]
  refine ⟨?_, hA2, ?_⟩
  · simp only [readFileExec, hpath, hparse, hverify, hread_res]
  · intro heq
    have h2 := hA2
    rw [heq] at h2
    rw [hA] at h2
    exact Option.noConfusion h2

theorem c9_read_file_creates_missing_parents_witness :
    readFileExec 100 fsC3 ["w"] [("path", "a/b")] =
      (⟨[(["w"], .dir), (["w", "a"], .dir)]⟩, .ok (.error "File not found: a/b"))
    ∧ FS.lookup ⟨[(["w"], .dir), (["w", "a"], .dir)]⟩ (["w"] ++ ["a"]) = some .dir
    ∧ (⟨[(["w"], .dir), (["w", "a"], .dir)]⟩ : FS) ≠ fsC3 := by
  have h := c9_read_file_creates_missing_parents 100 fsC3 ["w"] "a" "b" "a/b"
    [("path", "a/b")] rfl rfl rfl rfl rfl
  exact ⟨h.1, h.2.1, h.2.2⟩

end Mycelium
